import Mathlib

/-!
Shallow embedding of the TEMPT token API server (src/server.js): the
persistence-and-aggregation layer of the subscriber, migration, waitlist and
analytics services.  JavaScript strings are embedded as lists of characters,
JSON body fields as optional strings, timestamps as natural numbers, and each
HTTP handler as a pure function from the loaded collection and the request
fields to a result code and the collection it persists.
-/

namespace Tempt

/-- Characters of a JavaScript string. -/
abbrev Str := List Char

/-- Whitespace recognised by the embedding of the JavaScript trim. -/
def isWS (c : Char) : Bool :=
  c == (' ') || c == ('\t') || c == ('\n') || c == ('\r') || c == ('\x0b') || c == ('\x0c')

/-- Embedding of the trim method: drop whitespace on both ends. -/
def jsTrim (s : Str) : Str :=
  ((s.dropWhile isWS).reverse.dropWhile isWS).reverse

/-- Embedding of toLowerCase on the ASCII range the handlers use. -/
def lowerStr (s : Str) : Str := s.map Char.toLower

/-- Embedding of toUpperCase on the ASCII range the handlers use. -/
def upperStr (s : Str) : Str := s.map Char.toUpper

/-- The JavaScript idiom (body.field || dflt) on an optional string field:
an absent or empty (falsy) string is replaced by the default. -/
def jsOr (o : Option Str) (d : Str) : Str :=
  match o with
  | none => d
  | some s => if s.isEmpty then d else s

/-- The normalisation (body.email || '').trim().toLowerCase() shared by the
subscribe, migrate and waitlist handlers. -/
def normEmail (o : Option Str) : Str := lowerStr (jsTrim (jsOr o []))

/-- True when some character of the list is a dot that is not the final
character. -/
def dotNotLast : Str → Bool
  | [] => false
  | [_] => false
  | c :: rest => c == ('.') || dotNotLast rest

/-- Embedding of isValidEmail in server.js, the test of the anchored pattern
local@domain.tld: exactly one at-sign, no whitespace, nonempty local part, and
a domain containing a dot that is neither its first nor its last character. -/
def isValidEmail (s : Str) : Bool :=
  match s.splitOn ('@') with
  | [l, d] =>
      !l.isEmpty && !d.isEmpty &&
      l.all (fun c => !isWS c) && d.all (fun c => !isWS c) &&
      (match d with
       | [] => false
       | _ :: t => dotNotLast t)
  | _ => false

/-- Hexadecimal digit, either case. -/
def isHexDigit (c : Char) : Bool :=
  (decide (('0') ≤ c) && decide (c ≤ ('9'))) ||
  (decide (('a') ≤ c) && decide (c ≤ ('f'))) ||
  (decide (('A') ≤ c) && decide (c ≤ ('F')))

/-- Embedding of isValidEth in server.js: the 0x prefix followed by exactly
forty hexadecimal digits. -/
def isValidEth (s : Str) : Bool :=
  match s with
  | ('0') :: ('x') :: rest => rest.length == 40 && rest.all isHexDigit
  | _ => false

/-- A character of the base-58 style alphabet of the Solana address check. -/
def isBase58Char (c : Char) : Bool :=
  (decide (('1') ≤ c) && decide (c ≤ ('9'))) ||
  (decide (('A') ≤ c) && decide (c ≤ ('H'))) ||
  (decide (('J') ≤ c) && decide (c ≤ ('N'))) ||
  (decide (('P') ≤ c) && decide (c ≤ ('Z'))) ||
  (decide (('a') ≤ c) && decide (c ≤ ('k'))) ||
  (decide (('m') ≤ c) && decide (c ≤ ('z')))

/-- Embedding of isValidSol in server.js: thirty-two to forty-four characters
of the base-58 style alphabet. -/
def isValidSol (s : Str) : Bool :=
  decide (32 ≤ s.length) && decide (s.length ≤ 44) && s.all isBase58Char

/-- Does the first list occur as a prefix of the second. -/
def startsWithL : Str → Str → Bool
  | [], _ => true
  | _ :: _, [] => false
  | a :: as, b :: bs => a == b && startsWithL as bs

/-- Does the needle occur as a contiguous substring of the haystack.  The
embedding of a regular expression alternation of literal tokens tests this for
each token. -/
def containsSub (needle : Str) : Str → Bool
  | [] => startsWithL needle []
  | c :: rest => startsWithL needle (c :: rest) || containsSub needle rest

/-- The possible contents of a collection file as seen by loadJSON: the read
may throw (missing or unreadable file), the parse may throw (corrupt text), or
parsing succeeds and the named collection field is present or absent. -/
inductive ReadResult (α : Type) : Type
  | readError : ReadResult α
  | parseError : ReadResult α
  | parsed : Option (List α) → ReadResult α

/-- Embedding of loadJSON in server.js: both failure modes are caught and
yield the empty object, modelled as an absent collection field. -/
def loadJSON {α : Type} : ReadResult α → Option (List α)
  | .readError => none
  | .parseError => none
  | .parsed f => f

/-- The collection a handler works on: loadJSON followed by the defaulting
line (if the field is absent, use the empty list). -/
def getColl {α : Type} (rr : ReadResult α) : List α := (loadJSON rr).getD []

/-- A file content that is missing, unreadable, corrupt, or lacks the
collection field. -/
def corruptish {α : Type} (rr : ReadResult α) : Prop :=
  rr = .readError ∨ rr = .parseError ∨ rr = .parsed none

/-- Replace the first element satisfying the predicate, leaving every other
element in place: the embedding of finding a record with Array.prototype.find
and mutating it before persisting the whole collection. -/
def updateFirst {α : Type} (p : α → Bool) (f : α → α) : List α → List α
  | [] => []
  | x :: xs => if p x then f x :: xs else x :: updateFirst p f xs

/-- A subscriber record as pushed by the subscribe handler. -/
structure Subscriber where
  id : Str
  email : Str
  name : Option Str
  source : Str
  subscribedAt : Nat
  ip : Str
deriving DecidableEq

/-- Result code of the subscribe handler. -/
inductive SubResult : Type
  | invalidEmail
  | duplicate
  | ok
deriving DecidableEq

/-- Embedding of the POST /api/subscribe handler body: normalise the fields,
validate the email, return the duplicate outcome without mutation when the
email is already present, and otherwise append a fresh record. -/
def subscribe (subs : List Subscriber) (emailRaw nameRaw sourceRaw : Option Str)
    (freshId : Str) (now : Nat) (ip : Str) : SubResult × List Subscriber :=
  let email := normEmail emailRaw
  let source := (jsTrim (jsOr sourceRaw ("website").toList)).take 50
  let name := (jsTrim (jsOr nameRaw [])).take 100
  if email.isEmpty || !isValidEmail email then (.invalidEmail, subs)
  else
    match subs.find? (fun s => s.email == email) with
    | some _ => (.duplicate, subs)
    | none =>
        (.ok, subs ++ [{ id := freshId, email := email,
                         name := if name.isEmpty then none else some name,
                         source := source, subscribedAt := now, ip := ip }])

/-- A migration registration record.  The verifiedBalance, txHash and
updatedAt fields are absent on a fresh record and only set by later updates or
admin patches. -/
structure Registration where
  id : Str
  ethAddress : Str
  solAddress : Str
  email : Option Str
  selfReportedBalance : Option Str
  status : Str
  verifiedBalance : Option Str
  txHash : Option Str
  registeredAt : Nat
  updatedAt : Option Nat
  ip : Str
deriving DecidableEq

/-- Result code of the migrate handler. -/
inductive MigResult : Type
  | invalidEth
  | invalidSol
  | updatedDup
  | alreadyDup
  | ok
deriving DecidableEq

/-- Embedding of the POST /api/migrate handler body: trim both addresses,
normalise the optional email and balance, validate the source address then the
destination address, update the stored destination in place on a duplicate
source whose destination changed, report an unchanged duplicate otherwise, and
append a fresh pending record when the source is new. -/
def register (regs : List Registration) (ethRaw solRaw emailRaw balanceRaw : Option Str)
    (freshId : Str) (now : Nat) (ip : Str) : MigResult × List Registration :=
  let ethAddress := jsTrim (jsOr ethRaw [])
  let solAddress := jsTrim (jsOr solRaw [])
  let email := if (normEmail emailRaw).isEmpty then none else some (normEmail emailRaw)
  let balance := match balanceRaw with
    | none => none
    | some b => if b.isEmpty then none else some (jsTrim b)
  if !isValidEth ethAddress then (.invalidEth, regs)
  else if !isValidSol solAddress then (.invalidSol, regs)
  else
    match regs.find? (fun r => lowerStr r.ethAddress == lowerStr ethAddress) with
    | some existing =>
        if existing.solAddress ≠ solAddress then
          (.updatedDup,
            updateFirst (fun r => lowerStr r.ethAddress == lowerStr ethAddress)
              (fun r => { r with solAddress := solAddress, updatedAt := some now }) regs)
        else (.alreadyDup, regs)
    | none =>
        (.ok, regs ++ [{ id := freshId, ethAddress := lowerStr ethAddress,
                         solAddress := solAddress, email := email,
                         selfReportedBalance := balance, status := ("pending").toList,
                         verifiedBalance := none, txHash := none,
                         registeredAt := now, updatedAt := none, ip := ip }])

/-- The parsed body of an admin patch request.  A none field was absent or
undefined in the JSON body. -/
structure PatchBody where
  status : Option Str
  verifiedBalance : Option Str
  txHash : Option Str
deriving DecidableEq

/-- Result of the admin patch handler: the not-found error, or success
carrying the patched record. -/
inductive PatchResult : Type
  | notFound
  | ok (reg : Registration)
deriving DecidableEq

/-- JavaScript truthiness of an optional string field: an absent field or an
empty string is falsy. -/
def jsTruthy (o : Option Str) : Option Str :=
  match o with
  | none => none
  | some s => if s.isEmpty then none else some s

/-- The field updates of the PATCH /api/admin/migrations/:id handler: status
and txHash are guarded by JavaScript truthiness, verifiedBalance only by
definedness, and the last-update time is always stamped. -/
def applyPatch (body : PatchBody) (now : Nat) (r : Registration) : Registration :=
  { r with
    status := (jsTruthy body.status).getD r.status,
    verifiedBalance := body.verifiedBalance.or r.verifiedBalance,
    txHash := (jsTruthy body.txHash).or r.txHash,
    updatedAt := some now }

/-- Embedding of the PATCH /api/admin/migrations/:id handler body: find the
record by id, fail with the not-found error when absent, otherwise patch it in
place and persist. -/
def patchReg (regs : List Registration) (id : Str) (body : PatchBody) (now : Nat) :
    PatchResult × List Registration :=
  match regs.find? (fun r => r.id == id) with
  | none => (.notFound, regs)
  | some r =>
      (.ok (applyPatch body now r),
       updateFirst (fun q => q.id == id) (fun q => applyPatch body now q) regs)

/-- A stored pageview event. -/
structure Pageview where
  ts : Nat
  page : Str
  ref : Str
  device : Str
deriving DecidableEq

/-- The alternatives of the bot user-agent pattern in server.js. -/
def botTokens : List Str :=
  [("bot").toList, ("crawler").toList, ("spider").toList, ("crawl").toList,
   ("fetch").toList, ("scraper").toList, ("headless").toList, ("lighthouse").toList]

/-- Case-insensitive test of the bot user-agent pattern. -/
def isBot (ua : Str) : Bool :=
  botTokens.any (fun t => containsSub t (lowerStr ua))

/-- The alternatives of the mobile user-agent pattern in server.js. -/
def mobileTokens : List Str :=
  [("mobile").toList, ("android").toList, ("iphone").toList, ("ipad").toList]

/-- Case-insensitive test of the mobile user-agent pattern. -/
def isMobile (ua : Str) : Bool :=
  mobileTokens.any (fun t => containsSub t (lowerStr ua))

/-- The referrer classification chain of the pageview handler, first match
wins, empty referrer meaning direct. -/
def classifyRef (referrer : Str) : Str :=
  if referrer.isEmpty then ("direct").toList
  else
    let r := lowerStr referrer
    if containsSub ("twitter.com").toList r || containsSub ("t.co").toList r then
      ("twitter").toList
    else if containsSub ("t.me").toList r || containsSub ("telegram").toList r then
      ("telegram").toList
    else if containsSub ("google.").toList r then ("google").toList
    else if containsSub ("discord").toList r then ("discord").toList
    else if containsSub ("reddit").toList r then ("reddit").toList
    else ("other").toList

/-- Result code of the pageview handler: the silent no-op acceptance of bot
traffic (the 204 response) or a recorded event (the 200 response). -/
inductive PVResult : Type
  | botSkipped
  | recorded
deriving DecidableEq

/-- Embedding of the POST /api/pageview handler body: truncate the inputs,
silently accept bot traffic without touching the collection, classify device
and referrer, prune the collection to the most recent nine thousand events
when it has reached ten thousand, and append the new event. -/
def recordPageview (views : List Pageview) (pageRaw refRaw : Option Str) (ua : Str)
    (now : Nat) : PVResult × List Pageview :=
  let page := (jsTrim (jsOr pageRaw ("/").toList)).take 100
  let referrer := (jsTrim (jsOr refRaw [])).take 200
  if isBot ua then (.botSkipped, views)
  else
    let device := if isMobile ua then ("mobile").toList else ("desktop").toList
    let refSource := classifyRef referrer
    let pruned := if views.length ≥ 10000 then views.drop (views.length - 9000) else views
    (.recorded, pruned ++ [{ ts := now, page := page, ref := refSource, device := device }])

/-- The all-time count reported by the admin analytics aggregate: the length
of the stored pageview collection. -/
def allTime (views : List Pageview) : Nat := views.length

/-- A waitlist member record. -/
structure Member where
  id : Str
  email : Str
  name : Option Str
  refCode : Str
  referredBy : Option Str
  referrals : Nat
  joinedAt : Nat
  updatedAt : Option Nat
  ip : Str
deriving DecidableEq

/-- Result code of the waitlist join handler. -/
inductive JoinResult : Type
  | invalidEmail
  | duplicate (position : Nat) (refCode : Str) (referrals : Nat)
  | joined (position : Nat) (refCode : Str) (referrals : Nat) (total : Nat)
deriving DecidableEq

/-- The normalisation (body.ref || '').trim().substring(0, 20).toUpperCase()
followed by the JavaScript or-null idiom. -/
def normRefInput (refRaw : Option Str) : Option Str :=
  let r := upperStr ((jsTrim (jsOr refRaw [])).take 20)
  if r.isEmpty then none else some r

/-- The referrer-credit pass of the waitlist join: when a referring code was
supplied, increment the credit count of the first member carrying it and stamp
that member's last-update time; when no code was supplied or no member carries
it, leave the collection unchanged. -/
def creditPass (refCode : Option Str) (now : Nat) (members : List Member) : List Member :=
  match refCode with
  | none => members
  | some rc =>
      updateFirst (fun m => m.refCode == rc)
        (fun m => { m with referrals := m.referrals + 1, updatedAt := some now })
        members

/-- Embedding of the POST /api/waitlist handler body: normalise and validate
the email, return the duplicate outcome without mutation when the email is
already present, otherwise take the freshly generated code (a parameter, since
the handler draws it from the random generator without any collision check),
credit the first member carrying the supplied referring code if any, append
the new member with zero referrals, and report the one-based position equal to
the collection length after the append. -/
def join (members : List Member) (emailRaw nameRaw refRaw : Option Str)
    (genCode freshId : Str) (now : Nat) (ip : Str) : JoinResult × List Member :=
  let email := normEmail emailRaw
  let name := (jsTrim (jsOr nameRaw [])).take 100
  let refCode := normRefInput refRaw
  if email.isEmpty || !isValidEmail email then (.invalidEmail, members)
  else
    match members.find? (fun m => m.email == email) with
    | some m =>
        (.duplicate (members.findIdx (fun q => q.email == email) + 1) m.refCode m.referrals,
         members)
    | none =>
        let credited := creditPass refCode now members
        let member : Member :=
          { id := freshId, email := email,
            name := if name.isEmpty then none else some name,
            refCode := genCode, referredBy := refCode, referrals := 0,
            joinedAt := now, updatedAt := none, ip := ip }
        (.joined (credited.length + 1) genCode 0 (credited.length + 1),
         credited ++ [member])

/-! Helper lemmas about the list operations of the embedding. -/

theorem length_updateFirst {α : Type} (p : α → Bool) (f : α → α) (l : List α) :
    (updateFirst p f l).length = l.length := by
  induction l with
  | nil => rfl
  | cons x xs ih => cases h : p x <;> simp [updateFirst, h, ih]

theorem updateFirst_append {α : Type} (p : α → Bool) (f : α → α) (a : List α) (x : α)
    (b : List α) (ha : ∀ y ∈ a, p y = false) (hx : p x = true) :
    updateFirst p f (a ++ x :: b) = a ++ f x :: b := by
  induction a with
  | nil => simp [updateFirst, hx]
  | cons h t ih =>
      have hh := ha h (by simp)
      simp only [List.cons_append, updateFirst, hh, Bool.false_eq_true, if_false,
        List.cons.injEq, true_and]
      exact ih (fun y hy => ha y (by simp [hy]))

theorem updateFirst_eq_self {α : Type} (p : α → Bool) (f : α → α) (l : List α)
    (h : ∀ y ∈ l, p y = false) : updateFirst p f l = l := by
  induction l with
  | nil => rfl
  | cons x xs ih =>
      have hx := h x (by simp)
      simp only [updateFirst, hx, Bool.false_eq_true, if_false, List.cons.injEq, true_and]
      exact ih (fun y hy => h y (by simp [hy]))

theorem updateFirst_map {α β : Type} (p : α → Bool) (f : α → α) (g : α → β)
    (hg : ∀ x, g (f x) = g x) (l : List α) :
    (updateFirst p f l).map g = l.map g := by
  induction l with
  | nil => rfl
  | cons x xs ih => cases h : p x <;> simp [updateFirst, h, ih, hg]

theorem find?_append_cons {α : Type} (p : α → Bool) (a : List α) (x : α) (b : List α)
    (ha : ∀ y ∈ a, p y = false) (hx : p x = true) :
    List.find? p (a ++ x :: b) = some x := by
  induction a with
  | nil => simpa using List.find?_cons_of_pos b hx
  | cons h t ih =>
      have hh := ha h (by simp)
      rw [List.cons_append, List.find?_cons_of_neg _ (by simp [hh])]
      exact ih (fun y hy => ha y (by simp [hy]))

theorem findIdx_append_cons {α : Type} (p : α → Bool) (a : List α) (x : α) (b : List α)
    (ha : ∀ y ∈ a, p y = false) (hx : p x = true) :
    List.findIdx p (a ++ x :: b) = a.length := by
  induction a with
  | nil => simp [List.findIdx_cons, hx]
  | cons h t ih =>
      have hh := ha h (by simp)
      simp only [List.cons_append, List.findIdx_cons, hh, cond_false, List.length_cons]
      rw [ih (fun y hy => ha y (by simp [hy]))]

theorem findIdx_comp_map {α β : Type} (g : α → β) (q : β → Bool) (l : List α) :
    (l.map g).findIdx q = l.findIdx (fun x => q (g x)) := by
  induction l with
  | nil => rfl
  | cons x xs ih => simp [List.findIdx_cons, ih]

theorem findIdx_append_of_lt {α : Type} (p : α → Bool) (l l2 : List α)
    (h : l.findIdx p < l.length) : (l ++ l2).findIdx p = l.findIdx p := by
  induction l with
  | nil => simp at h
  | cons x xs ih =>
      cases hx : p x with
      | true => simp [List.findIdx_cons, hx]
      | false =>
          simp only [List.findIdx_cons, hx, cond_false, List.length_cons] at h
          simp only [List.cons_append, List.findIdx_cons, hx, cond_false]
          rw [ih (by omega)]

theorem isValidEmail_nil : isValidEmail ([] : Str) = false := by decide

theorem isEmpty_false_of_validEmail (e : Str) (h : isValidEmail e = true) :
    e.isEmpty = false := by
  cases e with
  | nil => rw [isValidEmail_nil] at h; cases h
  | cons c t => rfl

/-! Claim theorems. -/

/-- Claim C1: the spec states that a successful join collision-checks the new
referral code against every code already in the loaded collection,
regenerating on collision, so that codes stay pairwise distinct for every
value the generator may return.  The handler instead assigns the single value
drawn from the generator without consulting the collection: starting from a
state whose only member already owns the code AABBCCDD, a join for which the
generator returns AABBCCDD succeeds and leaves two members with the same
referral code. -/
theorem refcode_collision_unchecked :
    (join [{ id := ("01").toList, email := ("a@x.com").toList, name := none,
             refCode := ("AABBCCDD").toList, referredBy := none, referrals := 0,
             joinedAt := 0, updatedAt := none, ip := ("ip").toList }]
        (some (("b@x.com").toList)) none none (("AABBCCDD").toList) (("02").toList) 1
        (("ip").toList)).2.map Member.refCode
      = [("AABBCCDD").toList, ("AABBCCDD").toList]
    ∧ ¬ ((join [{ id := ("01").toList, email := ("a@x.com").toList, name := none,
                  refCode := ("AABBCCDD").toList, referredBy := none, referrals := 0,
                  joinedAt := 0, updatedAt := none, ip := ("ip").toList }]
          (some (("b@x.com").toList)) none none (("AABBCCDD").toList) (("02").toList) 1
          (("ip").toList)).2.map Member.refCode).Nodup := by
  constructor
  · decide
  · decide

/-- Claim C7: a pageview request whose user agent matches the bot-signature
pattern is acknowledged with the no-op 204 success and leaves the stored
pageview collection, and hence the all-time count of the aggregate,
completely unchanged. -/
theorem pageview_bot_suppressed (views : List Pageview) (pageRaw refRaw : Option Str)
    (ua : Str) (now : Nat) (hb : isBot ua = true) :
    recordPageview views pageRaw refRaw ua now = (.botSkipped, views)
    ∧ allTime (recordPageview views pageRaw refRaw ua now).2 = allTime views := by
  have h : recordPageview views pageRaw refRaw ua now = (.botSkipped, views) := by
    simp [recordPageview, hb]
  exact ⟨h, by rw [h]⟩

/-- Witness for C7: a concrete user agent containing the token headless is
classified as a bot and its pageview is dropped. -/
theorem pageview_bot_suppressed_witness :
    recordPageview [] (some (("/home").toList)) none (("Mozilla HeadlessChrome").toList) 3
      = (.botSkipped, [])
    ∧ allTime (recordPageview [] (some (("/home").toList)) none
        (("Mozilla HeadlessChrome").toList) 3).2 = allTime [] :=
  pageview_bot_suppressed [] (some (("/home").toList)) none
    (("Mozilla HeadlessChrome").toList) 3 (by decide)

/-- Claim C5: a non-bot pageview is stored; whenever the loaded collection
exceeds the ten-thousand-event ceiling it is pruned to exactly the most recent
nine thousand events before the new event is appended, and immediately after
any single append the collection never exceeds ten thousand and one events. -/
theorem pageview_retention_bound (views : List Pageview) (pageRaw refRaw : Option Str)
    (ua : Str) (now : Nat) (hb : isBot ua = false) :
    (recordPageview views pageRaw refRaw ua now).1 = .recorded
    ∧ (recordPageview views pageRaw refRaw ua now).2.length ≤ 10001
    ∧ (views.length > 10000 →
        (recordPageview views pageRaw refRaw ua now).2 =
          views.drop (views.length - 9000) ++
            [{ ts := now,
               page := (jsTrim (jsOr pageRaw ("/").toList)).take 100,
               ref := classifyRef ((jsTrim (jsOr refRaw [])).take 200),
               device := if isMobile ua then ("mobile").toList else ("desktop").toList }]
        ∧ (views.drop (views.length - 9000)).length = 9000) := by
  have hred : recordPageview views pageRaw refRaw ua now =
      (.recorded,
       (if views.length ≥ 10000 then views.drop (views.length - 9000) else views) ++
         [{ ts := now,
            page := (jsTrim (jsOr pageRaw ("/").toList)).take 100,
            ref := classifyRef ((jsTrim (jsOr refRaw [])).take 200),
            device := if isMobile ua then ("mobile").toList else ("desktop").toList }]) := by
    simp [recordPageview, hb]
  rw [hred]
  refine ⟨rfl, ?_, ?_⟩
  · by_cases hlen : views.length ≥ 10000
    · simp [hlen, List.length_drop]
      omega
    · simp [hlen]
      omega
  · intro hgt
    have hge : views.length ≥ 10000 := by omega
    rw [if_pos hge]
    exact ⟨rfl, by rw [List.length_drop]; omega⟩

/-- Witness for C5: a non-bot pageview on the empty collection is appended. -/
theorem pageview_retention_bound_witness :
    (recordPageview [] (some (("/home").toList)) none (("Mozilla Firefox").toList) 3).1
      = .recorded
    ∧ (recordPageview [] (some (("/home").toList)) none
        (("Mozilla Firefox").toList) 3).2.length ≤ 10001
    ∧ (([] : List Pageview).length > 10000 →
        (recordPageview [] (some (("/home").toList)) none
            (("Mozilla Firefox").toList) 3).2 =
          ([] : List Pageview).drop (([] : List Pageview).length - 9000) ++
            [{ ts := 3,
               page := (jsTrim (jsOr (some (("/home").toList)) ("/").toList)).take 100,
               ref := classifyRef ((jsTrim (jsOr none [])).take 200),
               device := if isMobile (("Mozilla Firefox").toList) then ("mobile").toList
                         else ("desktop").toList }]
        ∧ (([] : List Pageview).drop (([] : List Pageview).length - 9000)).length = 9000) :=
  pageview_retention_bound [] (some (("/home").toList)) none
    (("Mozilla Firefox").toList) 3 (by decide)

/-- Claim C6: loading a collection file that is missing, unreadable, corrupt,
or lacking its collection field yields the empty default collection, every
service operation on such a file behaves exactly as on an empty collection
(the corruption is fully swallowed and never surfaced), and in particular a
subscribe with a valid email on a corrupt file still succeeds. -/
theorem storage_corruption_swallowed
    (rrS : ReadResult Subscriber) (rrW : ReadResult Member) (rrP : ReadResult Pageview)
    (h1 : corruptish rrS) (h2 : corruptish rrW) (h3 : corruptish rrP) :
    getColl rrS = [] ∧ getColl rrW = [] ∧ getColl rrP = []
    ∧ (∀ e n s fid now ip, subscribe (getColl rrS) e n s fid now ip
        = subscribe [] e n s fid now ip)
    ∧ (∀ e n r g fid now ip, join (getColl rrW) e n r g fid now ip
        = join [] e n r g fid now ip)
    ∧ (∀ p r ua now, recordPageview (getColl rrP) p r ua now
        = recordPageview [] p r ua now)
    ∧ (∀ e n s fid now ip, isValidEmail (normEmail e) = true →
        (subscribe (getColl rrS) e n s fid now ip).1 = .ok) := by
  have g1 : getColl rrS = [] := by
    rcases h1 with h | h | h <;> rw [h] <;> rfl
  have g2 : getColl rrW = [] := by
    rcases h2 with h | h | h <;> rw [h] <;> rfl
  have g3 : getColl rrP = [] := by
    rcases h3 with h | h | h <;> rw [h] <;> rfl
  refine ⟨g1, g2, g3, ?_, ?_, ?_, ?_⟩
  · intro e n s fid now ip; rw [g1]
  · intro e n r g fid now ip; rw [g2]
  · intro p r ua now; rw [g3]
  · intro e n s fid now ip hv
    rw [g1]
    simp [subscribe, isEmpty_false_of_validEmail _ hv, hv]

/-- Witness for C6: an unreadable subscribers file, a corrupt waitlist file
and an analytics file without its collection field all load as empty, and a
valid subscribe against the unreadable file succeeds. -/
theorem storage_corruption_swallowed_witness :
    getColl (ReadResult.readError : ReadResult Subscriber) = []
    ∧ getColl (ReadResult.parseError : ReadResult Member) = []
    ∧ getColl (ReadResult.parsed none : ReadResult Pageview) = []
    ∧ subscribe (getColl (ReadResult.readError : ReadResult Subscriber))
        (some (("a@x.com").toList)) none none (("i1").toList) 0 (("ip").toList)
      = subscribe [] (some (("a@x.com").toList)) none none (("i1").toList) 0 (("ip").toList)
    ∧ (subscribe (getColl (ReadResult.readError : ReadResult Subscriber))
        (some (("a@x.com").toList)) none none (("i1").toList) 0 (("ip").toList)).1 = .ok := by
  obtain ⟨g1, g2, g3, hs, hj, hp, hok⟩ :=
    storage_corruption_swallowed ReadResult.readError ReadResult.parseError
      (ReadResult.parsed none) (Or.inl rfl) (Or.inr (Or.inl rfl)) (Or.inr (Or.inr rfl))
  exact ⟨g1, g2, g3, hs _ _ _ _ _ _, hok _ _ _ _ _ _ (by decide)⟩

/-- Claim C3: a join whose normalised email already belongs to a member (the
first such member being x, at zero-based position equal to the length of the
prefix a) performs no mutation of the stored collection, whatever referring
code is supplied, and returns the duplicate success with the current one-based
rank, the member's own referral code, and the member's current credit
count. -/
theorem waitlist_duplicate_idempotent (a b : List Member) (x : Member)
    (emailRaw nameRaw refRaw : Option Str) (genCode freshId : Str) (now : Nat) (ip : Str)
    (hv : isValidEmail (normEmail emailRaw) = true)
    (ha : ∀ y ∈ a, y.email ≠ normEmail emailRaw)
    (hx : x.email = normEmail emailRaw) :
    join (a ++ x :: b) emailRaw nameRaw refRaw genCode freshId now ip =
      (.duplicate (a.length + 1) x.refCode x.referrals, a ++ x :: b) := by
  have hfind : (a ++ x :: b).find? (fun m => m.email == normEmail emailRaw) = some x :=
    find?_append_cons _ a x b
      (fun y hy => beq_eq_false_iff_ne.mpr (ha y hy)) (beq_iff_eq.mpr hx)
  have hidx : (a ++ x :: b).findIdx (fun m => m.email == normEmail emailRaw) = a.length :=
    findIdx_append_cons _ a x b
      (fun y hy => beq_eq_false_iff_ne.mpr (ha y hy)) (beq_iff_eq.mpr hx)
  simp [join, isEmpty_false_of_validEmail _ hv, hv, hfind, hidx]

/-- Witness for C3: replaying the first member of a two-member waitlist with a
referring code different from the one supplied at first join mutates nothing
and reports rank one with the stored code and credit count. -/
theorem waitlist_duplicate_idempotent_witness :
    join ([] ++ { id := ("01").toList, email := ("a@x.com").toList, name := none,
                  refCode := ("AAAA1111").toList, referredBy := none, referrals := 4,
                  joinedAt := 0, updatedAt := none, ip := ("ip").toList } ::
            [{ id := ("02").toList, email := ("b@x.com").toList, name := none,
               refCode := ("BBBB2222").toList, referredBy := none, referrals := 0,
               joinedAt := 1, updatedAt := none, ip := ("ip").toList }])
        (some (("A@x.com ").toList)) none (some (("bbbb2222").toList))
        (("CCCC3333").toList) (("03").toList) 9 (("ip").toList)
      = (.duplicate (List.length ([] : List Member) + 1) (("AAAA1111").toList) 4,
         [] ++ { id := ("01").toList, email := ("a@x.com").toList, name := none,
                 refCode := ("AAAA1111").toList, referredBy := none, referrals := 4,
                 joinedAt := 0, updatedAt := none, ip := ("ip").toList } ::
           [{ id := ("02").toList, email := ("b@x.com").toList, name := none,
              refCode := ("BBBB2222").toList, referredBy := none, referrals := 0,
              joinedAt := 1, updatedAt := none, ip := ("ip").toList }]) :=
  waitlist_duplicate_idempotent []
    [{ id := ("02").toList, email := ("b@x.com").toList, name := none,
       refCode := ("BBBB2222").toList, referredBy := none, referrals := 0,
       joinedAt := 1, updatedAt := none, ip := ("ip").toList }]
    { id := ("01").toList, email := ("a@x.com").toList, name := none,
      refCode := ("AAAA1111").toList, referredBy := none, referrals := 4,
      joinedAt := 0, updatedAt := none, ip := ("ip").toList }
    (some (("A@x.com ").toList)) none (some (("bbbb2222").toList))
    (("CCCC3333").toList) (("03").toList) 9 (("ip").toList)
    (by decide) (by decide) (by decide)

/-- Claim C2: joining a fresh email while supplying a referring code rc: if rc
is the code of an existing member (x, the first carrier, with no carrier in
the prefix a), exactly that member has its credit count incremented by one and
its last-update time stamped, the new member starts with zero referrals, every
other record is unchanged, and the single persisted collection covers both; if
no member carries rc, the join still succeeds and no credit count changes. -/
theorem waitlist_referral_credit (members : List Member)
    (emailRaw nameRaw refRaw : Option Str) (rc genCode freshId : Str) (now : Nat) (ip : Str)
    (_hdist : (members.map Member.refCode).Nodup)
    (hv : isValidEmail (normEmail emailRaw) = true)
    (hnp : ∀ m ∈ members, m.email ≠ normEmail emailRaw)
    (hrc : normRefInput refRaw = some rc) :
    (∀ a x b, members = a ++ x :: b → (∀ y ∈ a, y.refCode ≠ rc) → x.refCode = rc →
      join members emailRaw nameRaw refRaw genCode freshId now ip =
        (.joined (members.length + 1) genCode 0 (members.length + 1),
         a ++ { x with referrals := x.referrals + 1, updatedAt := some now } ::
           (b ++ [{ id := freshId, email := normEmail emailRaw,
                    name := if ((jsTrim (jsOr nameRaw [])).take 100).isEmpty then none
                            else some ((jsTrim (jsOr nameRaw [])).take 100),
                    refCode := genCode, referredBy := some rc, referrals := 0,
                    joinedAt := now, updatedAt := none, ip := ip }])))
    ∧ ((∀ y ∈ members, y.refCode ≠ rc) →
      join members emailRaw nameRaw refRaw genCode freshId now ip =
        (.joined (members.length + 1) genCode 0 (members.length + 1),
         members ++ [{ id := freshId, email := normEmail emailRaw,
                       name := if ((jsTrim (jsOr nameRaw [])).take 100).isEmpty then none
                               else some ((jsTrim (jsOr nameRaw [])).take 100),
                       refCode := genCode, referredBy := some rc, referrals := 0,
                       joinedAt := now, updatedAt := none, ip := ip }])) := by
  have hfind : members.find? (fun m => m.email == normEmail emailRaw) = none :=
    List.find?_eq_none.mpr (fun y hy => by
      simp only [beq_iff_eq]
      exact hnp y hy)
  have hred : join members emailRaw nameRaw refRaw genCode freshId now ip =
      (.joined ((updateFirst (fun m => m.refCode == rc)
          (fun m => { m with referrals := m.referrals + 1, updatedAt := some now })
          members).length + 1) genCode 0
        ((updateFirst (fun m => m.refCode == rc)
          (fun m => { m with referrals := m.referrals + 1, updatedAt := some now })
          members).length + 1),
       updateFirst (fun m => m.refCode == rc)
          (fun m => { m with referrals := m.referrals + 1, updatedAt := some now })
          members ++
         [{ id := freshId, email := normEmail emailRaw,
            name := if ((jsTrim (jsOr nameRaw [])).take 100).isEmpty then none
                    else some ((jsTrim (jsOr nameRaw [])).take 100),
            refCode := genCode, referredBy := some rc, referrals := 0,
            joinedAt := now, updatedAt := none, ip := ip }]) := by
    simp [join, creditPass, isEmpty_false_of_validEmail _ hv, hv, hfind, hrc]
  constructor
  · intro a x b hsp hpa hpx
    have hup : updateFirst (fun m => m.refCode == rc)
        (fun m => { m with referrals := m.referrals + 1, updatedAt := some now })
        members = a ++ { x with referrals := x.referrals + 1, updatedAt := some now } :: b := by
      rw [hsp]
      exact updateFirst_append _ _ a x b
        (fun y hy => beq_eq_false_iff_ne.mpr (hpa y hy)) (beq_iff_eq.mpr hpx)
    rw [hred, hup, hsp]
    simp [List.length_append]
  · intro hnone
    have hup : updateFirst (fun m => m.refCode == rc)
        (fun m => { m with referrals := m.referrals + 1, updatedAt := some now })
        members = members :=
      updateFirst_eq_self _ _ members
        (fun y hy => beq_eq_false_iff_ne.mpr (hnone y hy))
    rw [hred, hup]

/-- Witness for C2: a second member joining with the first member's code (in
lower case, normalised by the handler) credits exactly that member. -/
theorem waitlist_referral_credit_witness :
    join [{ id := ("01").toList, email := ("a@x.com").toList, name := none,
            refCode := ("AAAA1111").toList, referredBy := none, referrals := 0,
            joinedAt := 0, updatedAt := none, ip := ("ip").toList }]
        (some (("b@x.com").toList)) none (some (("aaaa1111").toList))
        (("BBBB2222").toList) (("02").toList) 7 (("ip").toList)
      = (.joined 2 (("BBBB2222").toList) 0 2,
         [{ id := ("01").toList, email := ("a@x.com").toList, name := none,
            refCode := ("AAAA1111").toList, referredBy := none, referrals := 1,
            joinedAt := 0, updatedAt := some 7, ip := ("ip").toList },
          { id := ("02").toList, email := ("b@x.com").toList, name := none,
            refCode := ("BBBB2222").toList, referredBy := some (("AAAA1111").toList),
            referrals := 0, joinedAt := 7, updatedAt := none, ip := ("ip").toList }]) := by
  have h := (waitlist_referral_credit
    [{ id := ("01").toList, email := ("a@x.com").toList, name := none,
       refCode := ("AAAA1111").toList, referredBy := none, referrals := 0,
       joinedAt := 0, updatedAt := none, ip := ("ip").toList }]
    (some (("b@x.com").toList)) none (some (("aaaa1111").toList))
    (("AAAA1111").toList) (("BBBB2222").toList) (("02").toList) 7 (("ip").toList)
    (by decide) (by decide) (by decide) (by decide)).1
    [] _ [] rfl (by decide) (by decide)
  exact h

/-- Claim C9: a successful join returns a one-based rank equal to the
collection length immediately after the append; the stored insertion order is
append-only, since the persisted collection consists of the old members in
their original order (with at most a credit-count field changed) followed by
the new member, so the rank of every already-present email, the index of its
first occurrence plus one, is unchanged by the join. -/
theorem waitlist_rank_stability (members : List Member)
    (emailRaw nameRaw refRaw : Option Str) (genCode freshId : Str) (now : Nat) (ip : Str)
    (hv : isValidEmail (normEmail emailRaw) = true)
    (hnp : ∀ m ∈ members, m.email ≠ normEmail emailRaw) :
    (join members emailRaw nameRaw refRaw genCode freshId now ip).1 =
      .joined (members.length + 1) genCode 0 (members.length + 1)
    ∧ (join members emailRaw nameRaw refRaw genCode freshId now ip).2.map Member.email =
        members.map Member.email ++ [normEmail emailRaw]
    ∧ (∀ i (h : i < members.length),
        (join members emailRaw nameRaw refRaw genCode freshId now ip).2.findIdx
            (fun m => m.email == (members.get ⟨i, h⟩).email)
          = members.findIdx (fun m => m.email == (members.get ⟨i, h⟩).email)) := by
  have hfind : members.find? (fun m => m.email == normEmail emailRaw) = none :=
    List.find?_eq_none.mpr (fun y hy => by
      simp only [beq_iff_eq]
      exact hnp y hy)
  have hmap : (creditPass (normRefInput refRaw) now members).map Member.email =
      members.map Member.email := by
    cases hr : normRefInput refRaw with
    | none => rfl
    | some rc =>
        simp only [creditPass]
        refine updateFirst_map _ _ Member.email ?_ members
        intro m
        rfl
  have hlen : (creditPass (normRefInput refRaw) now members).length = members.length := by
    have h := congrArg List.length hmap
    simpa using h
  have hred : join members emailRaw nameRaw refRaw genCode freshId now ip =
      (.joined ((creditPass (normRefInput refRaw) now members).length + 1) genCode 0
        ((creditPass (normRefInput refRaw) now members).length + 1),
       creditPass (normRefInput refRaw) now members ++
         [{ id := freshId, email := normEmail emailRaw,
            name := if ((jsTrim (jsOr nameRaw [])).take 100).isEmpty then none
                    else some ((jsTrim (jsOr nameRaw [])).take 100),
            refCode := genCode, referredBy := normRefInput refRaw, referrals := 0,
            joinedAt := now, updatedAt := none, ip := ip }]) := by
    simp [join, isEmpty_false_of_validEmail _ hv, hv, hfind]
  refine ⟨?_, ?_, ?_⟩
  · rw [hred, hlen]
  · rw [hred]
    simp [hmap]
  · intro i h
    rw [hred]
    have hpm : members.findIdx (fun m => m.email == (members.get ⟨i, h⟩).email)
        < members.length :=
      List.findIdx_lt_length_of_exists
        ⟨members.get ⟨i, h⟩, List.get_mem members i h, by simp⟩
    have h1 := findIdx_comp_map Member.email
      (fun s => s == (members.get ⟨i, h⟩).email) (creditPass (normRefInput refRaw) now members)
    have h2 := findIdx_comp_map Member.email
      (fun s => s == (members.get ⟨i, h⟩).email) members
    rw [hmap] at h1
    have hidx : (creditPass (normRefInput refRaw) now members).findIdx
        (fun m => m.email == (members.get ⟨i, h⟩).email)
        = members.findIdx (fun m => m.email == (members.get ⟨i, h⟩).email) :=
      h1.symm.trans h2
    have hlt : (creditPass (normRefInput refRaw) now members).findIdx
        (fun m => m.email == (members.get ⟨i, h⟩).email)
        < (creditPass (normRefInput refRaw) now members).length := by
      rw [hidx, hlen]
      exact hpm
    rw [findIdx_append_of_lt _ _ _ hlt, hidx]

/-- Witness for C9: the second joiner of a one-member waitlist receives rank
two, the stored email order is the old order plus the new email, and the rank
of the first member is unchanged. -/
theorem waitlist_rank_stability_witness :
    (join [{ id := ("01").toList, email := ("a@x.com").toList, name := none,
             refCode := ("AAAA1111").toList, referredBy := none, referrals := 0,
             joinedAt := 0, updatedAt := none, ip := ("ip").toList }]
        (some (("b@x.com").toList)) none none (("BBBB2222").toList) (("02").toList) 7
        (("ip").toList)).1 = .joined 2 (("BBBB2222").toList) 0 2
    ∧ (join [{ id := ("01").toList, email := ("a@x.com").toList, name := none,
               refCode := ("AAAA1111").toList, referredBy := none, referrals := 0,
               joinedAt := 0, updatedAt := none, ip := ("ip").toList }]
        (some (("b@x.com").toList)) none none (("BBBB2222").toList) (("02").toList) 7
        (("ip").toList)).2.map Member.email =
        [("a@x.com").toList, ("b@x.com").toList] := by
  have h := waitlist_rank_stability
    [{ id := ("01").toList, email := ("a@x.com").toList, name := none,
       refCode := ("AAAA1111").toList, referredBy := none, referrals := 0,
       joinedAt := 0, updatedAt := none, ip := ("ip").toList }]
    (some (("b@x.com").toList)) none none (("BBBB2222").toList) (("02").toList) 7
    (("ip").toList) (by decide) (by decide)
  exact ⟨h.1, by rw [h.2.1]; decide⟩

/-- Claim C4: registering a source address whose lowercase form is the key of
an existing record (x, its only carrier) updates the stored destination in
place and stamps the last-update time when the destination differs, reporting
the updated duplicate, and reports the unchanged already-registered duplicate
otherwise; in both branches the record keeps its status and creation
timestamp (only solAddress and updatedAt can change) and the collection holds
exactly one record for that source key afterwards. -/
theorem migrate_duplicate_update (a b : List Registration) (x : Registration)
    (ethRaw solRaw emailRaw balanceRaw : Option Str) (freshId : Str) (now : Nat) (ip : Str)
    (heth : isValidEth (jsTrim (jsOr ethRaw [])) = true)
    (hsol : isValidSol (jsTrim (jsOr solRaw [])) = true)
    (ha : ∀ y ∈ a, lowerStr y.ethAddress ≠ lowerStr (jsTrim (jsOr ethRaw [])))
    (hx : lowerStr x.ethAddress = lowerStr (jsTrim (jsOr ethRaw [])))
    (hb : ∀ y ∈ b, lowerStr y.ethAddress ≠ lowerStr (jsTrim (jsOr ethRaw []))) :
    (x.solAddress ≠ jsTrim (jsOr solRaw []) →
      register (a ++ x :: b) ethRaw solRaw emailRaw balanceRaw freshId now ip =
        (.updatedDup,
         a ++ { x with solAddress := jsTrim (jsOr solRaw []), updatedAt := some now } :: b))
    ∧ (x.solAddress = jsTrim (jsOr solRaw []) →
      register (a ++ x :: b) ethRaw solRaw emailRaw balanceRaw freshId now ip =
        (.alreadyDup, a ++ x :: b))
    ∧ (register (a ++ x :: b) ethRaw solRaw emailRaw balanceRaw freshId now ip).2.countP
        (fun r => lowerStr r.ethAddress == lowerStr (jsTrim (jsOr ethRaw []))) = 1 := by
  have hfind : (a ++ x :: b).find?
      (fun r => lowerStr r.ethAddress == lowerStr (jsTrim (jsOr ethRaw []))) = some x :=
    find?_append_cons _ a x b
      (fun y hy => beq_eq_false_iff_ne.mpr (ha y hy)) (beq_iff_eq.mpr hx)
  have part1 : x.solAddress ≠ jsTrim (jsOr solRaw []) →
      register (a ++ x :: b) ethRaw solRaw emailRaw balanceRaw freshId now ip =
        (.updatedDup,
         a ++ { x with solAddress := jsTrim (jsOr solRaw []), updatedAt := some now } :: b) := by
    intro hne
    have hup : updateFirst
        (fun r => lowerStr r.ethAddress == lowerStr (jsTrim (jsOr ethRaw [])))
        (fun r => { r with solAddress := jsTrim (jsOr solRaw []), updatedAt := some now })
        (a ++ x :: b) =
        a ++ { x with solAddress := jsTrim (jsOr solRaw []), updatedAt := some now } :: b :=
      updateFirst_append _ _ a x b
        (fun y hy => beq_eq_false_iff_ne.mpr (ha y hy)) (beq_iff_eq.mpr hx)
    simp [register, heth, hsol, hfind, hne, hup]
  have part2 : x.solAddress = jsTrim (jsOr solRaw []) →
      register (a ++ x :: b) ethRaw solRaw emailRaw balanceRaw freshId now ip =
        (.alreadyDup, a ++ x :: b) := by
    intro heq
    simp [register, heth, hsol, hfind, heq]
  have hca : a.countP
      (fun r => lowerStr r.ethAddress == lowerStr (jsTrim (jsOr ethRaw []))) = 0 :=
    List.countP_eq_zero.mpr (fun y hy => by
      simp only [beq_iff_eq]
      exact ha y hy)
  have hcb : b.countP
      (fun r => lowerStr r.ethAddress == lowerStr (jsTrim (jsOr ethRaw []))) = 0 :=
    List.countP_eq_zero.mpr (fun y hy => by
      simp only [beq_iff_eq]
      exact hb y hy)
  refine ⟨part1, part2, ?_⟩
  by_cases hcase : x.solAddress = jsTrim (jsOr solRaw [])
  · rw [part2 hcase]
    simp [List.countP_append, List.countP_cons, hca, hcb, hx]
  · rw [part1 hcase]
    simp [List.countP_append, List.countP_cons, hca, hcb, hx]

/-- Witness for C4: re-registering a stored source address with a new
destination updates that single record in place and reports the updated
duplicate. -/
theorem migrate_duplicate_update_witness :
    register
        ([] ++ { id := ("r1").toList,
                 ethAddress := ("0xaabbccddeeff00112233445566778899aabbccdd").toList,
                 solAddress := ("AaAaAaAaAaAaAaAaAaAaAaAaAaAaAaAa").toList,
                 email := none, selfReportedBalance := none, status := ("pending").toList,
                 verifiedBalance := none, txHash := none, registeredAt := 0,
                 updatedAt := none, ip := ("ip").toList } :: [])
        (some (("0xAABBCCDDEEFF00112233445566778899AABBCCDD").toList))
        (some (("BbBbBbBbBbBbBbBbBbBbBbBbBbBbBbBb").toList)) none none
        (("r2").toList) 9 (("ip").toList)
      = (.updatedDup,
         [] ++ { id := ("r1").toList,
                 ethAddress := ("0xaabbccddeeff00112233445566778899aabbccdd").toList,
                 solAddress := ("BbBbBbBbBbBbBbBbBbBbBbBbBbBbBbBb").toList,
                 email := none, selfReportedBalance := none, status := ("pending").toList,
                 verifiedBalance := none, txHash := none, registeredAt := 0,
                 updatedAt := some 9, ip := ("ip").toList } :: []) :=
  (migrate_duplicate_update [] []
    { id := ("r1").toList,
      ethAddress := ("0xaabbccddeeff00112233445566778899aabbccdd").toList,
      solAddress := ("AaAaAaAaAaAaAaAaAaAaAaAaAaAaAaAa").toList,
      email := none, selfReportedBalance := none, status := ("pending").toList,
      verifiedBalance := none, txHash := none, registeredAt := 0,
      updatedAt := none, ip := ("ip").toList }
    (some (("0xAABBCCDDEEFF00112233445566778899AABBCCDD").toList))
    (some (("BbBbBbBbBbBbBbBbBbBbBbBbBbBbBbBb").toList)) none none
    (("r2").toList) 9 (("ip").toList)
    (by decide) (by decide) (by decide) (by decide) (by decide)).1 (by decide)

/-- Counterexample to claim C8 as stated: the claim says that exactly the
fields provided in the request body among status, verifiedBalance and txHash
are applied, but the handler guards status (and txHash) with JavaScript
truthiness, so a provided empty-string status is silently ignored: patching a
pending record with the body whose status field is the empty string leaves the
stored status equal to pending, not the provided empty string. -/
theorem migrate_patch_provided_empty_ignored :
    patchReg [{ id := ("r1").toList, ethAddress := ("e").toList,
                solAddress := ("s").toList, email := none, selfReportedBalance := none,
                status := ("pending").toList, verifiedBalance := none, txHash := none,
                registeredAt := 0, updatedAt := none, ip := ("ip").toList }]
        (("r1").toList)
        { status := some [], verifiedBalance := none, txHash := none } 5
      = (.ok { id := ("r1").toList, ethAddress := ("e").toList,
               solAddress := ("s").toList, email := none, selfReportedBalance := none,
               status := ("pending").toList, verifiedBalance := none, txHash := none,
               registeredAt := 0, updatedAt := some 5, ip := ("ip").toList },
         [{ id := ("r1").toList, ethAddress := ("e").toList,
            solAddress := ("s").toList, email := none, selfReportedBalance := none,
            status := ("pending").toList, verifiedBalance := none, txHash := none,
            registeredAt := 0, updatedAt := some 5, ip := ("ip").toList }])
    ∧ ("pending").toList ≠ ([] : Str) := by
  constructor
  · decide
  · decide

/-- Claim C8 (amended): if no record carries the given id the patch fails
with the not-found error and the stored state is unchanged; otherwise the
first record carrying the id (x, after a prefix a free of it) is replaced in
place by the record in which status is overwritten only when provided
non-empty, txHash is overwritten only when provided non-empty, verifiedBalance
is overwritten whenever provided, and the last-update time is stamped, while
every other field of that record and every other record are unchanged. -/
theorem migrate_patch_truthy_fields (regs a b : List Registration) (x : Registration)
    (id : Str) (body : PatchBody) (now : Nat) :
    ((∀ y ∈ regs, y.id ≠ id) → patchReg regs id body now = (.notFound, regs))
    ∧ (regs = a ++ x :: b → (∀ y ∈ a, y.id ≠ id) → x.id = id →
        patchReg regs id body now =
          (.ok { x with status := (jsTruthy body.status).getD x.status,
                        verifiedBalance := body.verifiedBalance.or x.verifiedBalance,
                        txHash := (jsTruthy body.txHash).or x.txHash,
                        updatedAt := some now },
           a ++ { x with status := (jsTruthy body.status).getD x.status,
                         verifiedBalance := body.verifiedBalance.or x.verifiedBalance,
                         txHash := (jsTruthy body.txHash).or x.txHash,
                         updatedAt := some now } :: b)) := by
  constructor
  · intro hnone
    have hfind : regs.find? (fun r => r.id == id) = none :=
      List.find?_eq_none.mpr (fun y hy => by
        simp only [beq_iff_eq]
        exact hnone y hy)
    simp [patchReg, hfind]
  · intro hsp hpa hpx
    subst hsp
    have hfind : (a ++ x :: b).find? (fun r => r.id == id) = some x :=
      find?_append_cons _ a x b
        (fun y hy => beq_eq_false_iff_ne.mpr (hpa y hy)) (beq_iff_eq.mpr hpx)
    have hup : updateFirst (fun q => q.id == id) (fun q => applyPatch body now q)
        (a ++ x :: b) = a ++ applyPatch body now x :: b :=
      updateFirst_append _ _ a x b
        (fun y hy => beq_eq_false_iff_ne.mpr (hpa y hy)) (beq_iff_eq.mpr hpx)
    have hred : patchReg (a ++ x :: b) id body now =
        (.ok (applyPatch body now x),
         updateFirst (fun q => q.id == id) (fun q => applyPatch body now q) (a ++ x :: b)) := by
      simp [patchReg, hfind]
    rw [hred, hup]
    simp [applyPatch]

/-- Witness for the amended C8: a patch providing a non-empty status and a
verified balance applies exactly those fields to the single record with the
given id and stamps its last-update time. -/
theorem migrate_patch_truthy_fields_witness :
    patchReg ([] ++ { id := ("r1").toList, ethAddress := ("e").toList,
                      solAddress := ("s").toList, email := none,
                      selfReportedBalance := none, status := ("pending").toList,
                      verifiedBalance := none, txHash := none,
                      registeredAt := 0, updatedAt := none, ip := ("ip").toList } :: [])
        (("r1").toList)
        { status := some (("verified").toList),
          verifiedBalance := some (("1000").toList), txHash := none } 5
      = (.ok { id := ("r1").toList, ethAddress := ("e").toList,
               solAddress := ("s").toList, email := none, selfReportedBalance := none,
               status := ("verified").toList,
               verifiedBalance := some (("1000").toList), txHash := none,
               registeredAt := 0, updatedAt := some 5, ip := ("ip").toList },
         [] ++ { id := ("r1").toList, ethAddress := ("e").toList,
                 solAddress := ("s").toList, email := none, selfReportedBalance := none,
                 status := ("verified").toList,
                 verifiedBalance := some (("1000").toList), txHash := none,
                 registeredAt := 0, updatedAt := some 5, ip := ("ip").toList } :: []) :=
  (migrate_patch_truthy_fields
    ([{ id := ("r1").toList, ethAddress := ("e").toList,
        solAddress := ("s").toList, email := none, selfReportedBalance := none,
        status := ("pending").toList, verifiedBalance := none, txHash := none,
        registeredAt := 0, updatedAt := none, ip := ("ip").toList }]) [] []
    { id := ("r1").toList, ethAddress := ("e").toList,
      solAddress := ("s").toList, email := none, selfReportedBalance := none,
      status := ("pending").toList, verifiedBalance := none, txHash := none,
      registeredAt := 0, updatedAt := none, ip := ("ip").toList }
    (("r1").toList)
    { status := some (("verified").toList),
      verifiedBalance := some (("1000").toList), txHash := none } 5).2
    rfl (by decide) (by decide)

/-- Claim C10 (implicit): the migration register operation never validates its
optional email: its result code is the same for every supplied email, a
successful registration stores the trimmed lowercased email (or none when the
trimmed result is empty), and no validation error can arise from it — in
contrast to subscribe and waitlist join, which reject any email failing the
email validator. -/
theorem migrate_email_unvalidated (regs : List Registration)
    (ethRaw solRaw balanceRaw : Option Str) (freshId : Str) (now : Nat) (ip : Str) :
    (∀ e1 e2 : Option Str,
      (register regs ethRaw solRaw e1 balanceRaw freshId now ip).1 =
        (register regs ethRaw solRaw e2 balanceRaw freshId now ip).1)
    ∧ (∀ e : Option Str, isValidEth (jsTrim (jsOr ethRaw [])) = true →
        isValidSol (jsTrim (jsOr solRaw [])) = true →
        (∀ y ∈ regs, lowerStr y.ethAddress ≠ lowerStr (jsTrim (jsOr ethRaw []))) →
        register regs ethRaw solRaw e balanceRaw freshId now ip =
          (.ok, regs ++
            [{ id := freshId,
               ethAddress := lowerStr (jsTrim (jsOr ethRaw [])),
               solAddress := jsTrim (jsOr solRaw []),
               email := if (normEmail e).isEmpty then none else some (normEmail e),
               selfReportedBalance := (match balanceRaw with
                 | none => none
                 | some bb => if bb.isEmpty then none else some (jsTrim bb)),
               status := ("pending").toList, verifiedBalance := none, txHash := none,
               registeredAt := now, updatedAt := none, ip := ip }]))
    ∧ (∀ (st : List Subscriber) e n s fid now2 ip2,
        isValidEmail (normEmail e) = false →
        subscribe st e n s fid now2 ip2 = (.invalidEmail, st))
    ∧ (∀ (st : List Member) e n r g fid now2 ip2,
        isValidEmail (normEmail e) = false →
        join st e n r g fid now2 ip2 = (.invalidEmail, st)) := by
  refine ⟨?_, ?_, ?_, ?_⟩
  · intro e1 e2
    cases h1 : isValidEth (jsTrim (jsOr ethRaw [])) with
    | false => simp [register, h1]
    | true =>
        cases h2 : isValidSol (jsTrim (jsOr solRaw [])) with
        | false => simp [register, h1, h2]
        | true =>
            cases hf : regs.find?
                (fun r => lowerStr r.ethAddress == lowerStr (jsTrim (jsOr ethRaw []))) with
            | none => simp [register, h1, h2, hf]
            | some ex =>
                by_cases h3 : ex.solAddress = jsTrim (jsOr solRaw []) <;>
                  simp [register, h1, h2, hf, h3]
  · intro e heth hsol hnone
    have hfind : regs.find?
        (fun r => lowerStr r.ethAddress == lowerStr (jsTrim (jsOr ethRaw []))) = none :=
      List.find?_eq_none.mpr (fun y hy => by
        simp only [beq_iff_eq]
        exact hnone y hy)
    simp [register, heth, hsol, hfind]
  · intro st e n s fid now2 ip2 hinv
    simp [subscribe, hinv]
  · intro st e n r g fid now2 ip2 hinv
    simp [join, hinv]

/-- Witness for C10: a register call supplying a string that is no valid
email succeeds and stores it trimmed and lowercased, while a subscribe with
the same string is rejected by the validator. -/
theorem migrate_email_unvalidated_witness :
    register [] (some (("0xAABBCCDDEEFF00112233445566778899AABBCCDD").toList))
        (some (("AaAaAaAaAaAaAaAaAaAaAaAaAaAaAaAa").toList))
        (some ((" NOT-AN-EMAIL ").toList)) none (("r1").toList) 4 (("ip").toList)
      = (.ok,
         [] ++ [{ id := ("r1").toList,
                  ethAddress := ("0xaabbccddeeff00112233445566778899aabbccdd").toList,
                  solAddress := ("AaAaAaAaAaAaAaAaAaAaAaAaAaAaAaAa").toList,
                  email := some (("not-an-email").toList),
                  selfReportedBalance := none, status := ("pending").toList,
                  verifiedBalance := none, txHash := none,
                  registeredAt := 4, updatedAt := none, ip := ("ip").toList }])
    ∧ subscribe [] (some ((" NOT-AN-EMAIL ").toList)) none none (("s1").toList) 4
        (("ip").toList) = (.invalidEmail, []) := by
  have h := migrate_email_unvalidated [] (some (("0xAABBCCDDEEFF00112233445566778899AABBCCDD").toList))
    (some (("AaAaAaAaAaAaAaAaAaAaAaAaAaAaAaAa").toList)) none (("r1").toList) 4 (("ip").toList)
  refine ⟨?_, ?_⟩
  · have h2 := h.2.1 (some ((" NOT-AN-EMAIL ").toList)) (by decide) (by decide)
      (by intro y hy; cases hy)
    rw [h2]
    decide
  · exact h.2.2.1 [] (some ((" NOT-AN-EMAIL ").toList)) none none (("s1").toList) 4
      (("ip").toList) (by decide)

end Tempt
